import Mathlib

/-!
# Verification of the ace streaming orchestration core

A shallow embedding of `src/core/ai/llm/services/vercel.ts`
(`VercelLLMService`): the streaming step reconciler (the `onChunk`,
`onStepFinish`, `onFinish`, `onError` callbacks installed by
`streamText`), the non-streaming `completeTask` loop, and
`resetConversation`.  JavaScript strings are modelled by Lean `String`;
JS truthiness tests on strings (`if (s)`) become `s ≠ ""`, and
`s.trim() !== ''` becomes `jsTrim s ≠ ""`.
-/

namespace Ace

/-- Role of a message in the conversation store. -/
inductive Role where
  | user
  | assistant
  | tool
  deriving DecidableEq, Repr

/-- A single turn in the conversation store (`MessageManager` history). -/
structure Msg where
  role : Role
  content : String
  deriving DecidableEq, Repr

/-- Shorthand for an assistant message, as produced by
`messageManager.addAssistantMessage(text)`. -/
def Msg.assistant (t : String) : Msg := ⟨Role.assistant, t⟩

/-- One tool call reported by a step-finish notice. -/
structure ToolCallInfo where
  toolName : String
  args : String
  deriving DecidableEq, Repr

/-- One tool result reported by a step-finish notice. -/
structure ToolResultInfo where
  toolName : String
  result : String
  deriving DecidableEq, Repr

/-- The contents of a step-finish notice (`step.text`, `step.toolCalls`,
`step.toolResults` in `onStepFinish`). -/
structure StepInfo where
  text : String
  toolCalls : List ToolCallInfo
  toolResults : List ToolResultInfo
  deriving DecidableEq, Repr

/-- Events emitted on the agent event bus (`llmservice:*`). -/
inductive Event where
  | thinking
  | chunk (text : String)
  | toolCall (toolName : String) (args : String)
  | toolResult (toolName : String) (result : String)
  | response (text : String)
  | error (cause : String)
  | conversationReset
  | resetAccumulation
  deriving DecidableEq, Repr

/-- The raw provider signals consumed by the streaming reconciler:
text deltas (`onChunk` with a `text-delta` chunk), step-finish notices
(`onStepFinish`), a mid-stream provider error (`onError`) and stream
completion (`onFinish`). -/
inductive Signal where
  | textDelta (delta : String)
  | stepFinish (step : StepInfo)
  | streamError (cause : String)
  | streamFinish
  deriving DecidableEq, Repr

/-- Mutable state threaded through the streaming callbacks: the
pending-text buffer `currentSegmentText` and the conversation store's
message list (the part of `MessageManager` the reconciler writes). -/
structure StreamState where
  buffer : String
  history : List Msg
  deriving DecidableEq, Repr

/-- Model of JavaScript `String.prototype.trim()`: drop whitespace from
both ends.  (Defined over the character list so it computes by
structural recursion.) -/
def jsTrim (s : String) : String :=
  ⟨((s.data.dropWhile Char.isWhitespace).reverse.dropWhile Char.isWhitespace).reverse⟩

/-! ## The streaming callbacks (vercel.ts lines 242-338) -/

/-- `onChunk` (vercel.ts 242-251): on a `text-delta` chunk, if the delta
is truthy (non-empty), append it to `currentSegmentText` and emit a
`chunk` event carrying the delta.  No other check is performed. -/
def onChunk (st : StreamState) (delta : String) : StreamState × List Event :=
  if delta ≠ "" then
    (⟨st.buffer ++ delta, st.history⟩, [Event.chunk delta])
  else
    (st, [])

/-- `onError` (vercel.ts 252-258): emit a single `error` event; the
buffer and the conversation store are untouched. -/
def onError (st : StreamState) (cause : String) : StreamState × List Event :=
  (st, [Event.error cause])

/-- First phase of `onStepFinish` (vercel.ts 266-274): if
`step.text && step.text.trim() !== ''`, append `step.text` to the store
as an assistant message, emit a `response` event with `step.text`, clear
the buffer and mark the step handled.  Returns (state, events, handled). -/
def flushText (st : StreamState) (step : StepInfo) : StreamState × List Event × Bool :=
  if step.text ≠ "" ∧ jsTrim step.text ≠ "" then
    (⟨"", st.history ++ [Msg.assistant step.text]⟩, [Event.response step.text], true)
  else
    (st, [], false)

/-- Second phase of `onStepFinish` (vercel.ts 276-299): if the step
reports tool calls, first flush the buffer when
`currentSegmentText.trim()` is truthy and the step was not already
handled, then clear the buffer, emit one `toolCall` event per call and a
single `resetAccumulation` event, and mark the step handled. -/
def handleToolCalls (st : StreamState) (step : StepInfo) (handled : Bool) :
    StreamState × List Event × Bool :=
  if step.toolCalls ≠ [] then
    let pre : StreamState × List Event :=
      if jsTrim st.buffer ≠ "" ∧ handled = false then
        (⟨st.buffer, st.history ++ [Msg.assistant st.buffer]⟩, [Event.response st.buffer])
      else
        (st, [])
    (⟨"", pre.1.history⟩,
      pre.2 ++ step.toolCalls.map (fun tc => Event.toolCall tc.toolName tc.args)
        ++ [Event.resetAccumulation],
      true)
  else
    (st, [], handled)

/-- Third phase of `onStepFinish` (vercel.ts 301-313): if the step
reports tool results, emit one `toolResult` event per result, then clear
the buffer ("Expect new text after tool results") and mark the step
handled.  Note: the buffer is cleared without being flushed. -/
def handleToolResults (st : StreamState) (step : StepInfo) (handled : Bool) :
    StreamState × List Event × Bool :=
  if step.toolResults ≠ [] then
    (⟨"", st.history⟩,
      step.toolResults.map (fun tr => Event.toolResult tr.toolName tr.result),
      true)
  else
    (st, [], handled)

/-- Fourth phase of `onStepFinish` (vercel.ts 315-325): fallback — if the
buffer is still non-blank and the step was not handled, append the buffer
to the store, emit it as a `response` event and clear it. -/
def fallbackFlush (st : StreamState) (handled : Bool) : StreamState × List Event :=
  if jsTrim st.buffer ≠ "" ∧ handled = false then
    (⟨"", st.history ++ [Msg.assistant st.buffer]⟩, [Event.response st.buffer])
  else
    (st, [])

/-- `onStepFinish` (vercel.ts 259-326): the four phases in source order.
Events are emitted in phase order. -/
def onStepFinish (st : StreamState) (step : StepInfo) : StreamState × List Event :=
  let r1 := flushText st step
  let r2 := handleToolCalls r1.1 step r1.2.2
  let r3 := handleToolResults r2.1 step r2.2.2
  let r4 := fallbackFlush r3.1 r3.2.2
  (r4.1, r1.2.1 ++ r2.2.1 ++ r3.2.1 ++ r4.2)

/-- `onFinish` (vercel.ts 327-338): if the buffer is non-blank, append it
to the store and emit a `response` event; in all cases clear the buffer. -/
def onFinish (st : StreamState) : StreamState × List Event :=
  if jsTrim st.buffer ≠ "" then
    (⟨"", st.history ++ [Msg.assistant st.buffer]⟩, [Event.response st.buffer])
  else
    (⟨"", st.history⟩, [])

/-- Dispatch one provider signal to the matching callback. -/
def processSignal (st : StreamState) : Signal → StreamState × List Event
  | Signal.textDelta d => onChunk st d
  | Signal.stepFinish step => onStepFinish st step
  | Signal.streamError cause => onError st cause
  | Signal.streamFinish => onFinish st

/-- Run the reconciler over a whole signal trace, concatenating the
emitted events in order. -/
def processTrace (st : StreamState) : List Signal → StreamState × List Event
  | [] => (st, [])
  | sig :: rest =>
    let r1 := processSignal st sig
    let r2 := processTrace r1.1 rest
    (r2.1, r1.2 ++ r2.2)

/-- The events emitted while processing one step-finish notice. -/
def stepEvents (st : StreamState) (step : StepInfo) : List Event :=
  (onStepFinish st step).2

/-- The payloads of the `response` events in an event list. -/
def responseTexts (evs : List Event) : List String :=
  evs.filterMap (fun e => match e with
    | Event.response t => some t
    | _ => none)

/-- Number of `response` events in an event list. -/
def countResponses (evs : List Event) : Nat :=
  (responseTexts evs).length

/-- The payloads of the `error` events in an event list. -/
def errorTexts (evs : List Event) : List String :=
  evs.filterMap (fun e => match e with
    | Event.error c => some c
    | _ => none)

/-- Number of `error` events in an event list. -/
def countErrors (evs : List Event) : Nat :=
  (errorTexts evs).length

/-- Whether a provider signal is a mid-stream error. -/
def Signal.isErrorSignal : Signal → Bool
  | Signal.streamError _ => true
  | _ => false

/-! ## The non-streaming entry point and the generation loop -/

/-- The fixed iteration-exhaustion message (vercel.ts 112). -/
def exhaustionMessage : String :=
  "Reached maximum number of tool call iterations without a final response."

/-- Modelled from the spec: the step loop inside the Vercel AI SDK call
`generateText({..., maxSteps})` is an external dependency, not part of
this repository's sources; spec §6 describes the provider binding as
`generate(history, toolDescriptors, maxSteps) -> finalText`.  The SDK
runs provider steps one after another, continuing while the last step
requested tool calls and the step budget is not exhausted, and reports
the last step's text.  `runGen provider i fuel` runs at most `fuel`
further steps starting at step index `i` and returns (total steps run,
final text). -/
def runGen (provider : Nat → StepInfo) (i : Nat) : Nat → Nat × String
  | 0 => (i, "")
  | fuel + 1 =>
    let step := provider i
    if step.toolCalls ≠ [] ∧ fuel ≠ 0 then
      runGen provider (i + 1) fuel
    else
      (i + 1, step.text)

/-- The SDK call `generateText` with a step budget of `maxSteps`
(modelled from the spec, see `runGen`): returns the number of generation
steps executed and the final text. -/
def generateTextModel (provider : Nat → StepInfo) (maxSteps : Nat) : Nat × String :=
  runGen provider 0 maxSteps

/-- The fallible collaborators of `completeTask` /
`completeTaskStreaming`, and the provider behaviour for one task:
`toolFetch` is the outcome of `clientManager.getAllTools()` (called
before the `try` block), `historyFetch` the outcome of
`messageManager.getFormattedMessages` (called inside the `try`),
`genThrow` a provider-level exception thrown by the generation call
inside the `try` (none if generation runs), and `provider` the step
results the provider produces. -/
structure TaskEnv where
  toolFetch : Except String Unit
  historyFetch : Except String Unit
  genThrow : Option String
  provider : Nat → StepInfo

/-- `completeTask` (vercel.ts 61-128): appends the user message and
fetches/formats tools *before* the `try` block — a failure there
propagates to the caller.  Inside the `try`, the loop body runs exactly
once (`while (iterationCount < 1)`), calling `generateText` with
`maxSteps = this.maxIterations`; any exception inside the `try` is
caught and returned as the string `"Error processing request: " ++ msg`.
On success it returns the final text if truthy (non-empty), else the
fixed exhaustion message (`fullResponse || '...'`). -/
def completeTask (env : TaskEnv) (maxIterations : Nat) : Except String String :=
  match env.toolFetch with
  | Except.error e => Except.error e
  | Except.ok _ =>
    match env.historyFetch with
    | Except.error e => Except.ok ("Error processing request: " ++ e)
    | Except.ok _ =>
      match env.genThrow with
      | some e => Except.ok ("Error processing request: " ++ e)
      | none =>
        let text := (generateTextModel env.provider maxIterations).2
        Except.ok (if text ≠ "" then text else exhaustionMessage)

/-- `completeTaskStreaming` (vercel.ts 392-439): appends the user
message and fetches/formats tools *before* the `try` block — a failure
there propagates to the caller.  Inside the `try`: emit `thinking`,
fetch formatted history, then consume the stream (`processStream`); any
exception inside the `try` is caught and reported as an `error` event.
The streamed provider signals are the `trace` argument; on success it
returns the emitted events and the final reconciler state. -/
def completeTaskStreaming (env : TaskEnv) (st : StreamState) (trace : List Signal) :
    Except String (List Event × StreamState) :=
  match env.toolFetch with
  | Except.error e => Except.error e
  | Except.ok _ =>
    match env.historyFetch with
    | Except.error e => Except.ok ([Event.thinking, Event.error e], st)
    | Except.ok _ =>
      match env.genThrow with
      | some e => Except.ok ([Event.thinking, Event.error e], st)
      | none =>
        let r := processTrace st trace
        Except.ok (Event.thinking :: r.2, r.1)

/-! ## Conversation reset -/

/-- Modelled from the spec: `MessageManager.reset()` (the Conversation
Store's reset operation) is not among the sources under verification;
spec §4.1 says `reset()` "clears all messages atomically". -/
def messageManagerReset (_history : List Msg) : List Msg := []

/-- `resetConversation` (vercel.ts 347-350): delegates to the store's
reset and emits a `conversationReset` event. -/
def resetConversation (history : List Msg) : List Msg × List Event :=
  (messageManagerReset history, [Event.conversationReset])

/-! ## Helper lemmas -/

theorem jsTrim_empty : jsTrim "" = "" := rfl

theorem ne_empty_of_jsTrim_ne_empty {s : String} (h : jsTrim s ≠ "") : s ≠ "" := by
  intro hs
  subst hs
  exact h jsTrim_empty

@[simp] theorem responseTexts_nil : responseTexts [] = [] := rfl

@[simp] theorem responseTexts_append (a b : List Event) :
    responseTexts (a ++ b) = responseTexts a ++ responseTexts b := by
  simp [responseTexts]

@[simp] theorem responseTexts_toolCallMap (l : List ToolCallInfo) :
    responseTexts (l.map fun tc => Event.toolCall tc.toolName tc.args) = [] := by
  induction l with
  | nil => rfl
  | cons x xs _ => simp [responseTexts]

@[simp] theorem responseTexts_toolResultMap (l : List ToolResultInfo) :
    responseTexts (l.map fun tr => Event.toolResult tr.toolName tr.result) = [] := by
  induction l with
  | nil => rfl
  | cons x xs _ => simp [responseTexts]

@[simp] theorem responseTexts_response (t : String) :
    responseTexts [Event.response t] = [t] := rfl

@[simp] theorem responseTexts_reset :
    responseTexts [Event.resetAccumulation] = [] := rfl

@[simp] theorem responseTexts_chunk (t : String) :
    responseTexts [Event.chunk t] = [] := rfl

@[simp] theorem responseTexts_cons_response (t : String) (evs : List Event) :
    responseTexts (Event.response t :: evs) = t :: responseTexts evs := rfl

@[simp] theorem responseTexts_cons_toolCall (n a : String) (evs : List Event) :
    responseTexts (Event.toolCall n a :: evs) = responseTexts evs := rfl

@[simp] theorem responseTexts_cons_toolResult (n r : String) (evs : List Event) :
    responseTexts (Event.toolResult n r :: evs) = responseTexts evs := rfl

@[simp] theorem responseTexts_cons_reset (evs : List Event) :
    responseTexts (Event.resetAccumulation :: evs) = responseTexts evs := rfl

@[simp] theorem responseTexts_cons_chunk (t : String) (evs : List Event) :
    responseTexts (Event.chunk t :: evs) = responseTexts evs := rfl

@[simp] theorem responseTexts_cons_error (c : String) (evs : List Event) :
    responseTexts (Event.error c :: evs) = responseTexts evs := rfl

@[simp] theorem responseTexts_cons_thinking (evs : List Event) :
    responseTexts (Event.thinking :: evs) = responseTexts evs := rfl

@[simp] theorem responseTexts_cons_convReset (evs : List Event) :
    responseTexts (Event.conversationReset :: evs) = responseTexts evs := rfl

@[simp] theorem errorTexts_nil : errorTexts [] = [] := rfl

@[simp] theorem errorTexts_append (a b : List Event) :
    errorTexts (a ++ b) = errorTexts a ++ errorTexts b := by
  simp [errorTexts]

@[simp] theorem errorTexts_toolCallMap (l : List ToolCallInfo) :
    errorTexts (l.map fun tc => Event.toolCall tc.toolName tc.args) = [] := by
  induction l with
  | nil => rfl
  | cons x xs _ => simp [errorTexts]

@[simp] theorem errorTexts_toolResultMap (l : List ToolResultInfo) :
    errorTexts (l.map fun tr => Event.toolResult tr.toolName tr.result) = [] := by
  induction l with
  | nil => rfl
  | cons x xs _ => simp [errorTexts]

@[simp] theorem errorTexts_cons_error (c : String) (evs : List Event) :
    errorTexts (Event.error c :: evs) = c :: errorTexts evs := rfl

@[simp] theorem errorTexts_cons_response (t : String) (evs : List Event) :
    errorTexts (Event.response t :: evs) = errorTexts evs := rfl

@[simp] theorem errorTexts_cons_toolCall (n a : String) (evs : List Event) :
    errorTexts (Event.toolCall n a :: evs) = errorTexts evs := rfl

@[simp] theorem errorTexts_cons_toolResult (n r : String) (evs : List Event) :
    errorTexts (Event.toolResult n r :: evs) = errorTexts evs := rfl

@[simp] theorem errorTexts_cons_reset (evs : List Event) :
    errorTexts (Event.resetAccumulation :: evs) = errorTexts evs := rfl

@[simp] theorem errorTexts_cons_chunk (t : String) (evs : List Event) :
    errorTexts (Event.chunk t :: evs) = errorTexts evs := rfl

@[simp] theorem errorTexts_cons_thinking (evs : List Event) :
    errorTexts (Event.thinking :: evs) = errorTexts evs := rfl

@[simp] theorem errorTexts_cons_convReset (evs : List Event) :
    errorTexts (Event.conversationReset :: evs) = errorTexts evs := rfl

theorem processTrace_append (st : StreamState) (a b : List Signal) :
    processTrace st (a ++ b) =
      ((processTrace (processTrace st a).1 b).1,
        (processTrace st a).2 ++ (processTrace (processTrace st a).1 b).2) := by
  induction a generalizing st with
  | nil => simp [processTrace]
  | cons s rest ih => simp [processTrace, ih]

theorem processTrace_single (st : StreamState) (sig : Signal) :
    processTrace st [sig] = ((processSignal st sig).1, (processSignal st sig).2) := by
  simp [processTrace]

/-- Processing a run of deltas only grows the buffer: the store is
untouched and no `response` event is emitted. -/
theorem processTrace_deltas (st : StreamState) (deltas : List String) :
    (processTrace st (deltas.map Signal.textDelta)).1.history = st.history ∧
    responseTexts (processTrace st (deltas.map Signal.textDelta)).2 = [] := by
  induction deltas generalizing st with
  | nil => simp [processTrace]
  | cons d rest ih =>
    by_cases hd : d = ""
    · simpa [processTrace, processSignal, onChunk, hd] using ih st
    · simpa [processTrace, processSignal, onChunk, hd] using
        ih ⟨st.buffer ++ d, st.history⟩

/-- A step-finish whose reported text is non-blank flushes exactly that
text: one `response` event with `step.text` and one new assistant
message, whatever else the notice carries. -/
theorem stepFinish_closed_text (st : StreamState) (step : StepInfo)
    (htext : jsTrim step.text ≠ "") :
    responseTexts (stepEvents st step) = [step.text] ∧
    (onStepFinish st step).1.history = st.history ++ [Msg.assistant step.text] := by
  have hne : step.text ≠ "" := ne_empty_of_jsTrim_ne_empty htext
  by_cases hc : step.toolCalls = [] <;> by_cases hr : step.toolResults = [] <;>
    simp [stepEvents, onStepFinish, flushText, handleToolCalls, handleToolResults,
      fallbackFlush, hne, htext, hc, hr, jsTrim_empty]

/-! ## Claim theorems -/

/-- C1 (corrected): for every sequence of deltas followed by a
step-finish notice whose reported text is non-blank — non-empty after
trimming, matching the source's `step.text.trim() !== ''` guard — the
reconciler emits exactly one `response` event whose payload is the
step's reported text (never the running total), and the conversation
store gains exactly one new assistant message with that text. -/
theorem closed_text_flushes_once (st : StreamState) (deltas : List String)
    (step : StepInfo) (htext : jsTrim step.text ≠ "") :
    responseTexts (processTrace st (deltas.map Signal.textDelta
        ++ [Signal.stepFinish step])).2 = [step.text] ∧
    (processTrace st (deltas.map Signal.textDelta
        ++ [Signal.stepFinish step])).1.history
      = st.history ++ [Msg.assistant step.text] := by
  have h1 := processTrace_deltas st deltas
  have h2 := stepFinish_closed_text
    (processTrace st (deltas.map Signal.textDelta)).1 step htext
  rw [processTrace_append]
  refine ⟨?_, ?_⟩
  · simp [processTrace_single, processSignal, stepEvents, h1.2, h2.1] at *
    simp [h2.1]
  · simp [processTrace_single, processSignal, h2.2, h1.1]

/-- Witness for `closed_text_flushes_once`: deltas "He", "llo", then a
step-finish reporting "Hello". -/
theorem closed_text_flushes_once_witness :
    jsTrim "Hello" ≠ "" ∧
    responseTexts (processTrace ⟨"", []⟩ (["He", "llo"].map Signal.textDelta
        ++ [Signal.stepFinish ⟨"Hello", [], []⟩])).2 = ["Hello"] ∧
    (processTrace ⟨"", []⟩ (["He", "llo"].map Signal.textDelta
        ++ [Signal.stepFinish ⟨"Hello", [], []⟩])).1.history
      = [Msg.assistant "Hello"] :=
  ⟨by decide,
    (closed_text_flushes_once ⟨"", []⟩ ["He", "llo"] ⟨"Hello", [], []⟩ (by decide)).1,
    by simpa using
      (closed_text_flushes_once ⟨"", []⟩ ["He", "llo"] ⟨"Hello", [], []⟩ (by decide)).2⟩

/-- Counterexample to C1 as frozen: the step-finish text " " is
non-empty, yet the emitted `response` carries the buffered "x" (the
fallback flush), not the step's reported text, and the store receives
"x" rather than " ". -/
theorem closed_text_c1_counterexample :
    (" " : String) ≠ "" ∧
    responseTexts (processTrace ⟨"", []⟩ [Signal.textDelta "x",
        Signal.stepFinish ⟨" ", [], []⟩]).2 = ["x"] ∧
    (processTrace ⟨"", []⟩ [Signal.textDelta "x",
        Signal.stepFinish ⟨" ", [], []⟩]).1.history = [Msg.assistant "x"] := by
  decide

/-- C2 (corrected): if a step-finish reports tool calls while the
buffered text is non-blank, a `response` event — carrying the step's
closed text when that is non-blank, otherwise the buffered text — is
emitted strictly before any `toolCall` event; the step's event sequence
is exactly text-flush, then the tool-call events, then
`resetAccumulation`, then the tool-result events. -/
theorem flush_precedes_tool_calls (st : StreamState) (step : StepInfo)
    (hc : step.toolCalls ≠ []) (hb : jsTrim st.buffer ≠ "") :
    stepEvents st step =
      Event.response (if jsTrim step.text = "" then st.buffer else step.text) ::
        (step.toolCalls.map (fun tc => Event.toolCall tc.toolName tc.args)
          ++ [Event.resetAccumulation]
          ++ step.toolResults.map (fun tr => Event.toolResult tr.toolName tr.result)) := by
  by_cases ht : jsTrim step.text = ""
  · by_cases hr : step.toolResults = [] <;>
      simp [stepEvents, onStepFinish, flushText, handleToolCalls, handleToolResults,
        fallbackFlush, ht, hb, hc, hr, jsTrim_empty]
  · have hne := ne_empty_of_jsTrim_ne_empty ht
    by_cases hr : step.toolResults = [] <;>
      simp [stepEvents, onStepFinish, flushText, handleToolCalls, handleToolResults,
        fallbackFlush, ht, hne, hb, hc, hr, jsTrim_empty]

/-- Witness for `flush_precedes_tool_calls`: buffer "Hi", one tool call,
no closed text. -/
theorem flush_precedes_tool_calls_witness :
    ([(⟨"t", "a"⟩ : ToolCallInfo)] ≠ ([] : List ToolCallInfo)) ∧
    jsTrim "Hi" ≠ "" ∧
    stepEvents ⟨"Hi", []⟩ ⟨"", [⟨"t", "a"⟩], []⟩ =
      [Event.response "Hi", Event.toolCall "t" "a", Event.resetAccumulation] :=
  ⟨by decide, by decide,
    by simpa using
      flush_precedes_tool_calls ⟨"Hi", []⟩ ⟨"", [⟨"t", "a"⟩], []⟩ (by decide) (by decide)⟩

/-- Counterexample to C2 as frozen: the buffer " " is non-empty and the
step reports a tool call, yet no `response` event at all is emitted
(the guard is `currentSegmentText.trim()`, which is falsy). -/
theorem flush_precedes_tool_calls_counterexample :
    (" " : String) ≠ "" ∧
    responseTexts (stepEvents ⟨" ", []⟩ ⟨"", [⟨"t", "a"⟩], []⟩) = [] := by
  decide

/-- C3 (corrected): the pending buffer is flushed — appended to the
store and emitted as one `response` — when a tool-call batch arrives
with a non-blank buffer and no closed text, and at stream completion
with a non-blank buffer; but a tool-result batch without tool calls and
without closed text clears the buffer silently: no `response` event, no
store append. -/
theorem accumulator_flush_invariant :
    (∀ st step, step.toolCalls ≠ [] → jsTrim step.text = "" → jsTrim st.buffer ≠ "" →
      responseTexts (stepEvents st step) = [st.buffer] ∧
      (onStepFinish st step).1.history = st.history ++ [Msg.assistant st.buffer] ∧
      (onStepFinish st step).1.buffer = "") ∧
    (∀ st, jsTrim st.buffer ≠ "" →
      onFinish st =
        (⟨"", st.history ++ [Msg.assistant st.buffer]⟩, [Event.response st.buffer])) ∧
    (∀ st step, step.toolCalls = [] → jsTrim step.text = "" → step.toolResults ≠ [] →
      responseTexts (stepEvents st step) = [] ∧
      (onStepFinish st step).1.history = st.history ∧
      (onStepFinish st step).1.buffer = "") := by
  refine ⟨?_, ?_, ?_⟩
  · intro st step hc ht hb
    by_cases hr : step.toolResults = [] <;>
      simp [stepEvents, onStepFinish, flushText, handleToolCalls, handleToolResults,
        fallbackFlush, ht, hb, hc, hr, jsTrim_empty]
  · intro st hb
    simp [onFinish, hb]
  · intro st step hc ht hr
    simp [stepEvents, onStepFinish, flushText, handleToolCalls, handleToolResults,
      fallbackFlush, ht, hc, hr, jsTrim_empty]

/-- Witness for `accumulator_flush_invariant`: all three parts at
concrete inputs (buffer "Hi"; a tool-call step, stream completion and a
tool-result-only step). -/
theorem accumulator_flush_invariant_witness :
    responseTexts (stepEvents ⟨"Hi", []⟩ ⟨"", [⟨"t", "a"⟩], []⟩) = ["Hi"] ∧
    onFinish ⟨"Hi", []⟩ = (⟨"", [Msg.assistant "Hi"]⟩, [Event.response "Hi"]) ∧
    responseTexts (stepEvents ⟨"Hi", []⟩ ⟨"", [], [⟨"u", "r"⟩]⟩) = [] :=
  ⟨(accumulator_flush_invariant.1 ⟨"Hi", []⟩ ⟨"", [⟨"t", "a"⟩], []⟩
      (by decide) (by decide) (by decide)).1,
    by simpa using accumulator_flush_invariant.2.1 ⟨"Hi", []⟩ (by decide),
    (accumulator_flush_invariant.2.2 ⟨"Hi", []⟩ ⟨"", [], [⟨"u", "r"⟩]⟩
      (by decide) (by decide) (by decide)).1⟩

/-- Counterexample to C3 as frozen: (i) a tool-result-only step with
buffered "x" emits no `response` and leaves the store unchanged — the
buffer is silently dropped; (ii) a tool-call step with the non-empty
buffer " " is not flushed either. -/
theorem accumulator_drop_counterexample :
    (stepEvents ⟨"x", []⟩ ⟨"", [], [⟨"u", "r"⟩]⟩ = [Event.toolResult "u" "r"] ∧
      (onStepFinish ⟨"x", []⟩ ⟨"", [], [⟨"u", "r"⟩]⟩).1 = ⟨"", []⟩) ∧
    ((" " : String) ≠ "" ∧
      responseTexts (stepEvents ⟨" ", []⟩ ⟨"", [⟨"u", "a"⟩], []⟩) = []) := by
  decide

/-- C6 (corrected): on each incoming delta the reconciler appends the
delta to the buffer and emits a `chunk` event carrying only the new
delta exactly when the delta is non-empty; it performs no
suffix-containment check, so a delta already implied by the buffer is
buffered and emitted again (the duplicate-suffix guard lives in the CLI
subscriber, not here). -/
theorem chunk_append_iff_nonempty (st : StreamState) (d : String) (hd : d ≠ "") :
    (onChunk st d).2 = [Event.chunk d] ∧
    (onChunk st d).1 = ⟨st.buffer ++ d, st.history⟩ ∧
    (onChunk st "").2 = [] ∧ (onChunk st "").1 = st := by
  simp [onChunk, hd]

/-- Witness for `chunk_append_iff_nonempty`: the buffer "ab" already
ends with the delta "b", yet the delta is appended and emitted. -/
theorem chunk_append_iff_nonempty_witness :
    ("b" : String) ≠ "" ∧
    (onChunk ⟨"ab", []⟩ "b").2 = [Event.chunk "b"] ∧
    (onChunk ⟨"ab", []⟩ "b").1 = ⟨"abb", []⟩ :=
  ⟨by decide, (chunk_append_iff_nonempty ⟨"ab", []⟩ "b" (by decide)).1,
    by simpa using (chunk_append_iff_nonempty ⟨"ab", []⟩ "b" (by decide)).2.1⟩

/-- Counterexample to C6 as frozen: the buffer "ab" already ends with
the delta "b" ("ab" = "a" ++ "b"), so per the claim no chunk event
should be emitted; the code emits it and buffers "abb". -/
theorem chunk_no_suffix_guard_counterexample :
    ("ab" : String) = "a" ++ "b" ∧
    onChunk ⟨"ab", []⟩ "b" = (⟨"abb", []⟩, [Event.chunk "b"]) := by
  decide

/-- `resetAccumulation` appears among one step-finish's events iff the
notice carries a non-empty tool-call batch. -/
theorem resetAcc_stepEvents (st : StreamState) (step : StepInfo) :
    Event.resetAccumulation ∈ stepEvents st step ↔ step.toolCalls ≠ [] := by
  by_cases ht : step.text ≠ "" ∧ jsTrim step.text ≠ "" <;>
  by_cases hc : step.toolCalls = [] <;>
  by_cases hr : step.toolResults = [] <;>
  by_cases hb : jsTrim st.buffer = "" <;>
    simp [stepEvents, onStepFinish, flushText, handleToolCalls, handleToolResults,
      fallbackFlush, ht, hc, hr, hb, jsTrim_empty]

/-- C7 (confirmed): over any trace of provider signals,
`resetAccumulation` is emitted iff some step-finish notice in the trace
carries a non-empty tool-call batch; in particular it is never emitted
on a text-only step, a delta, an error or stream completion. -/
theorem resetAccumulation_iff_toolCalls (st : StreamState) (sigs : List Signal) :
    Event.resetAccumulation ∈ (processTrace st sigs).2 ↔
      ∃ step, Signal.stepFinish step ∈ sigs ∧ step.toolCalls ≠ [] := by
  induction sigs generalizing st with
  | nil => simp [processTrace]
  | cons sig rest ih =>
    cases sig with
    | textDelta d =>
      by_cases hd : d = "" <;>
        simp [processTrace, processSignal, onChunk, hd, ih]
    | stepFinish step =>
      have hstep := resetAcc_stepEvents st step
      simp only [stepEvents] at hstep
      by_cases hc : step.toolCalls = []
      · simp [processTrace, processSignal, hstep, hc, ih]
      · simp [processTrace, processSignal, hstep, hc, ih]
    | streamError c =>
      simp [processTrace, processSignal, onError, ih]
    | streamFinish =>
      by_cases hb : jsTrim st.buffer = "" <;>
        simp [processTrace, processSignal, onFinish, hb, ih]

/-- C9 (confirmed): `resetConversation` delegates to the store's reset
and emits a `conversationReset` event; calling it twice in a row leaves
the store in the same state as calling it once — empty in both cases. -/
theorem resetConversation_idempotent (history : List Msg) :
    resetConversation (resetConversation history).1 = resetConversation history ∧
    (resetConversation history).1 = [] ∧
    (resetConversation history).2 = [Event.conversationReset] := by
  simp [resetConversation, messageManagerReset]

/-- C10 (confirmed): one step-finish notice emits at most one `response`
event — the closed-text flush, the pre-tool-call flush and the
end-of-step fallback flush are mutually exclusive, because each path
clears the buffer and marks the step handled. -/
theorem at_most_one_response_per_step (st : StreamState) (step : StepInfo) :
    countResponses (stepEvents st step) ≤ 1 := by
  by_cases ht : step.text ≠ "" ∧ jsTrim step.text ≠ "" <;>
  by_cases hc : step.toolCalls = [] <;>
  by_cases hr : step.toolResults = [] <;>
  by_cases hb : jsTrim st.buffer = "" <;>
    simp [stepEvents, countResponses, onStepFinish, flushText, handleToolCalls,
      handleToolResults, fallbackFlush, ht, hc, hr, hb, jsTrim_empty]

/-- With a provider that always returns tool calls and empty text, the
generation loop runs through its whole fuel and ends with empty text. -/
theorem runGen_always_tools (provider : Nat → StepInfo)
    (hp : ∀ i, (provider i).toolCalls ≠ [] ∧ (provider i).text = "") :
    ∀ fuel i, runGen provider i fuel = (i + fuel, "") := by
  intro fuel
  induction fuel with
  | zero => intro i; simp [runGen]
  | succ f ihf =>
    intro i
    by_cases hf : f = 0
    · subst hf
      simp [runGen, (hp i).1, (hp i).2]
    · have := ihf (i + 1)
      simp [runGen, (hp i).1, hf, this]
      omega

/-- C4 (confirmed): given a provider that always returns further tool
calls and never text, `completeTask` terminates, the (spec-modelled) SDK
loop executes exactly `maxIterations` generation steps, and the call
returns the fixed exhaustion message. -/
theorem iteration_exhaustion (env : TaskEnv) (maxIterations : Nat)
    (htools : env.toolFetch = Except.ok ())
    (hhist : env.historyFetch = Except.ok ())
    (hgen : env.genThrow = none)
    (hp : ∀ i, (env.provider i).toolCalls ≠ [] ∧ (env.provider i).text = "") :
    completeTask env maxIterations = Except.ok exhaustionMessage ∧
    (generateTextModel env.provider maxIterations).1 = maxIterations := by
  have hrun := runGen_always_tools env.provider hp maxIterations 0
  constructor
  · simp [completeTask, htools, hhist, hgen, generateTextModel, hrun]
  · simp [generateTextModel, hrun]

/-- Witness for `iteration_exhaustion`: a three-step budget against a
provider that always calls tool "t". -/
theorem iteration_exhaustion_witness :
    completeTask ⟨Except.ok (), Except.ok (), none,
        fun _ => ⟨"", [⟨"t", "a"⟩], [⟨"t", "r"⟩]⟩⟩ 3 = Except.ok exhaustionMessage ∧
    (generateTextModel (fun _ => (⟨"", [⟨"t", "a"⟩], [⟨"t", "r"⟩]⟩ : StepInfo)) 3).1 = 3 := by
  refine iteration_exhaustion ⟨Except.ok (), Except.ok (), none,
    fun _ => ⟨"", [⟨"t", "a"⟩], [⟨"t", "r"⟩]⟩⟩ 3 rfl rfl rfl ?_
  intro i
  exact ⟨by simp, rfl⟩

/-- C5 (corrected): provided the pre-`try` phase (fetching and
formatting tools) succeeds, `completeTask` always returns a string —
the answer, an error string or the exhaustion message — and
`completeTaskStreaming` always returns normally, reporting in-flight
failures via `error` events; a tool-fetch failure, which happens before
the `try` block, instead propagates to the caller. -/
theorem entry_points_return (env : TaskEnv) (maxIterations : Nat)
    (st : StreamState) (trace : List Signal)
    (htools : env.toolFetch = Except.ok ()) :
    (completeTask env maxIterations).isOk = true ∧
    (completeTaskStreaming env st trace).isOk = true := by
  cases hh : env.historyFetch with
  | error e => simp [completeTask, completeTaskStreaming, htools, hh, Except.isOk, Except.toBool]
  | ok u =>
    cases hg : env.genThrow with
    | none => simp [completeTask, completeTaskStreaming, htools, hh, hg, Except.isOk, Except.toBool]
    | some e => simp [completeTask, completeTaskStreaming, htools, hh, hg, Except.isOk, Except.toBool]

/-- Witness for `entry_points_return` at a concrete succeeding
environment. -/
theorem entry_points_return_witness :
    (completeTask ⟨Except.ok (), Except.ok (), none, fun _ => ⟨"ok", [], []⟩⟩ 2).isOk
        = true ∧
    (completeTaskStreaming ⟨Except.ok (), Except.ok (), none, fun _ => ⟨"ok", [], []⟩⟩
        ⟨"", []⟩ [Signal.streamFinish]).isOk = true :=
  entry_points_return _ 2 ⟨"", []⟩ [Signal.streamFinish] rfl

/-- Counterexample to C5 as frozen: when fetching tools rejects, both
entry points reject across the public boundary — the failure occurs
before the `try` block, so nothing converts it into a returned string
or an `error` event. -/
theorem entry_points_throw_counterexample :
    completeTask ⟨Except.error "boom", Except.ok (), none, fun _ => ⟨"", [], []⟩⟩ 1
      = Except.error "boom" ∧
    completeTaskStreaming ⟨Except.error "boom", Except.ok (), none, fun _ => ⟨"", [], []⟩⟩
        ⟨"", []⟩ [] = Except.error "boom" :=
  ⟨rfl, rfl⟩

/-- One step-finish notice emits no `error` events. -/
theorem errorTexts_stepEvents (st : StreamState) (step : StepInfo) :
    errorTexts (stepEvents st step) = [] := by
  by_cases ht : step.text ≠ "" ∧ jsTrim step.text ≠ "" <;>
  by_cases hc : step.toolCalls = [] <;>
  by_cases hr : step.toolResults = [] <;>
  by_cases hb : jsTrim st.buffer = "" <;>
    simp [stepEvents, onStepFinish, flushText, handleToolCalls, handleToolResults,
      fallbackFlush, ht, hc, hr, hb, jsTrim_empty]

/-- A signal that is not a mid-stream error emits no `error` events. -/
theorem errorTexts_processSignal (st : StreamState) (sig : Signal)
    (hs : sig.isErrorSignal = false) :
    errorTexts (processSignal st sig).2 = [] := by
  cases sig with
  | textDelta d => by_cases hd : d = "" <;> simp [processSignal, onChunk, hd]
  | stepFinish step => simpa [processSignal, stepEvents] using errorTexts_stepEvents st step
  | streamError c => simp [Signal.isErrorSignal] at hs
  | streamFinish => by_cases hb : jsTrim st.buffer = "" <;> simp [processSignal, onFinish, hb]

/-- An error-free trace emits no `error` events at all. -/
theorem errorTexts_processTrace (st : StreamState) (sigs : List Signal)
    (hs : ∀ sig ∈ sigs, sig.isErrorSignal = false) :
    errorTexts (processTrace st sigs).2 = [] := by
  induction sigs generalizing st with
  | nil => simp [processTrace]
  | cons sig rest ih =>
    have h1 := errorTexts_processSignal st sig (hs sig (List.mem_cons_self sig rest))
    have h2 := ih (processSignal st sig).1 (fun s hmem => hs s (List.mem_cons_of_mem _ hmem))
    simp [processTrace, h1, h2]

/-- C8 (confirmed): a provider throw mid-stream — modelled as an
error-free signal run terminated by one `streamError`, after which the
SDK delivers nothing further — produces exactly one `error` event; the
error is the final event, so no `response` follows it, and the error
changes neither the buffer nor the store, so every segment flushed
before the throw remains in the conversation store. -/
theorem midstream_error_single (st : StreamState) (pre : List Signal) (cause : String)
    (hpre : ∀ sig ∈ pre, sig.isErrorSignal = false) :
    (processTrace st (pre ++ [Signal.streamError cause])).2
        = (processTrace st pre).2 ++ [Event.error cause] ∧
    countErrors (processTrace st (pre ++ [Signal.streamError cause])).2 = 1 ∧
    (processTrace st (pre ++ [Signal.streamError cause])).1 = (processTrace st pre).1 := by
  have h0 := errorTexts_processTrace st pre hpre
  rw [processTrace_append]
  refine ⟨?_, ?_, ?_⟩
  · simp [processTrace_single, processSignal, onError]
  · simp [processTrace_single, processSignal, onError, countErrors, h0]
  · simp [processTrace_single, processSignal, onError]

/-- Witness for `midstream_error_single`: a delta and a closed text
step, then the provider throws "boom". -/
theorem midstream_error_single_witness :
    (∀ sig ∈ [Signal.textDelta "a", Signal.stepFinish ⟨"a", [], []⟩],
        sig.isErrorSignal = false) ∧
    (processTrace ⟨"", []⟩ ([Signal.textDelta "a", Signal.stepFinish ⟨"a", [], []⟩]
        ++ [Signal.streamError "boom"])).2
      = (processTrace ⟨"", []⟩
          [Signal.textDelta "a", Signal.stepFinish ⟨"a", [], []⟩]).2
        ++ [Event.error "boom"] ∧
    countErrors (processTrace ⟨"", []⟩ ([Signal.textDelta "a",
        Signal.stepFinish ⟨"a", [], []⟩] ++ [Signal.streamError "boom"])).2 = 1 ∧
    (processTrace ⟨"", []⟩ ([Signal.textDelta "a", Signal.stepFinish ⟨"a", [], []⟩]
        ++ [Signal.streamError "boom"])).1
      = (processTrace ⟨"", []⟩
          [Signal.textDelta "a", Signal.stepFinish ⟨"a", [], []⟩]).1 :=
  ⟨by decide,
    midstream_error_single ⟨"", []⟩
      [Signal.textDelta "a", Signal.stepFinish ⟨"a", [], []⟩] "boom" (by decide)⟩

end Ace
